import Mathlib

/-!
Verification development for the youtube-music-mapper backend.

The definitions below are a shallow embedding of the Python sources
`src/backend/taste_similarity.py` and `src/backend/graph_builder.py`.
Python dicts are modelled as association lists in insertion order,
Python sets as `Finset String` (or key lists where iteration order is
needed), Python floats as exact arithmetic: `ℚ` wherever the code only
adds, multiplies and divides, and `ℝ` where `math.sqrt` enters.
-/

namespace YTMM

/-- Round-half-to-even of a rational to an integer: the tie rule of
Python's built-in `round`. -/
def roundHalfEvenQ (q : ℚ) : ℤ :=
  let f := ⌊q⌋
  if q - f < 1/2 then f
  else if 1/2 < q - f then f + 1
  else if Even f then f else f + 1

/-- Python `round(x, 1)` (one decimal place) on exact rationals. -/
def pyRound1 (q : ℚ) : ℚ := (roundHalfEvenQ (q * 10) : ℚ) / 10

open Classical in
/-- Round-half-to-even of a real to an integer: the tie rule of
Python's built-in `round`, for the real-valued quantities. -/
noncomputable def roundHalfEvenR (x : ℝ) : ℤ :=
  let f := ⌊x⌋
  if x - f < 1/2 then f
  else if 1/2 < x - f then f + 1
  else if Even f then f else f + 1

/-- Python `round(x, 1)` (one decimal place) on reals. -/
noncomputable def pyRoundR (x : ℝ) : ℝ := (roundHalfEvenR (x * 10) : ℝ) / 10

/-- Python `d.get(k, default)` on an association list (a dict in
insertion order). -/
def getD {α : Type} : List (String × α) → String → α → α
  | [], _, d => d
  | p :: t, k, d => if p.1 = k then p.2 else getD t k d

/-- Python `collections.Counter` increment `counts[k] += 1`: bump the
entry in place, or append a fresh entry with count 1. -/
def bump : List (String × ℕ) → String → List (String × ℕ)
  | [], k => [(k, 1)]
  | p :: t, k => if p.1 = k then (p.1, p.2 + 1) :: t else p :: bump t k

/-- Insert `a` into a list assumed sorted descending by `key`, before
the first element whose key is ≤ `key a` (the placement a stable
descending sort gives an element standing before its ties). -/
def insertByDesc {α K : Type} [LinearOrder K] (key : α → K) (a : α) :
    List α → List α
  | [] => [a]
  | b :: t => if key b ≤ key a then a :: b :: t else b :: insertByDesc key a t

/-- Python `sorted(l, key=key, reverse=True)`: stable sort, descending
by `key`. -/
def sortByDesc {α K : Type} [LinearOrder K] (key : α → K) : List α → List α
  | [] => []
  | a :: t => insertByDesc key a (sortByDesc key t)

/-- One artist credit of a song: the `{"id": ..., "name": ...}` record
inside a song's `artists` list. -/
structure ArtistCredit where
  id : String
  name : String
deriving DecidableEq

/-- A song record (`{"id", "title", "artists", ...}`); only the fields
the core reads are modelled. -/
structure Song where
  id : String
  artists : List ArtistCredit
deriving DecidableEq

/-- A listener's exported music data (`music_data`): the `liked_songs`
list is the only field the similarity core reads. -/
structure MusicData where
  liked_songs : List Song
deriving DecidableEq

/-- `taste_similarity.jaccard_similarity`: |A ∩ B| / |A ∪ B| with the
code's explicit empty-set fallbacks. -/
def jaccard_similarity (set1 set2 : Finset String) : ℚ :=
  if set1 = ∅ ∧ set2 = ∅ then 1
  else if set1 = ∅ ∨ set2 = ∅ then 0
  else
    let intersection := (set1 ∩ set2).card
    let union := (set1 ∪ set2).card
    if 0 < union then (intersection : ℚ) / union else 0

/-- Key set of an association list (Python `set(d.keys())`). -/
def keyFinset {α : Type} (l : List (String × α)) : Finset String :=
  (l.map Prod.fst).toFinset

/-- `taste_similarity.cosine_similarity`: the single Python loop over
`all_keys` accumulates the dot product and the two squared magnitudes;
here the three accumulators are the three sums.  `math.sqrt` makes the
result real. -/
noncomputable def cosine_similarity (vec1 vec2 : List (String × ℚ)) : ℝ :=
  let all_keys := keyFinset vec1 ∪ keyFinset vec2
  if all_keys = ∅ then 1
  else
    let dot_product : ℚ := ∑ k ∈ all_keys, getD vec1 k 0 * getD vec2 k 0
    let magSq1 : ℚ := ∑ k ∈ all_keys, getD vec1 k 0 * getD vec1 k 0
    let magSq2 : ℚ := ∑ k ∈ all_keys, getD vec2 k 0 * getD vec2 k 0
    let mag1 := Real.sqrt (magSq1 : ℝ)
    let mag2 := Real.sqrt (magSq2 : ℝ)
    if mag1 = 0 ∨ mag2 = 0 then 0
    else (dot_product : ℝ) / (mag1 * mag2)

/-- `taste_similarity.weighted_overlap`: Σ min / Σ max over the union
of the two key sets, an absent artist counting 0. -/
def weighted_overlap (counts1 counts2 : List (String × ℕ)) : ℚ :=
  let all_artists := keyFinset counts1 ∪ keyFinset counts2
  if all_artists = ∅ then 1
  else
    let min_sum : ℕ := ∑ a ∈ all_artists, min (getD counts1 a 0) (getD counts2 a 0)
    let max_sum : ℕ := ∑ a ∈ all_artists, max (getD counts1 a 0) (getD counts2 a 0)
    if 0 < max_sum then (min_sum : ℚ) / max_sum else 0

/-- `taste_similarity.extract_artist_counts`: a Counter over the artist
names credited on liked songs, skipping empty names. -/
def extract_artist_counts (music_data : MusicData) : List (String × ℕ) :=
  music_data.liked_songs.foldl (fun acc song =>
    song.artists.foldl (fun acc2 artist =>
      if artist.name ≠ "" then bump acc2 artist.name else acc2) acc) []

/-- `taste_similarity.extract_genre_vector`: tally one unit per
(song, artist) credit into the artist's genre (default "Other"), then
normalize by the total tally; the running `total += 1` equals the total
number of credits. -/
def extract_genre_vector (music_data : MusicData)
    (genre_map : List (String × String)) : List (String × ℚ) :=
  let genre_counts : List (String × ℕ) :=
    music_data.liked_songs.foldl (fun acc song =>
      song.artists.foldl (fun acc2 artist =>
        bump acc2 (getD genre_map artist.name "Other")) acc) []
  let total : ℕ :=
    music_data.liked_songs.foldl (fun n song => n + song.artists.length) 0
  if total = 0 then []
  else genre_counts.map (fun p => (p.1, (p.2 : ℚ) / total))

/-- The composite score: `0.40*jaccard + 0.30*weighted + 0.30*cosine`,
scaled to 0–100 and rounded to one decimal, as assembled inline in
`taste_similarity.calculate_similarity`. -/
noncomputable def overallScore (j w c : ℝ) : ℝ :=
  pyRoundR ((0.40 * j + 0.30 * w + 0.30 * c) * 100)

/-- The dict `taste_similarity.calculate_similarity` returns; the
`genre_breakdown` sub-dict is flattened into its two fields. -/
structure SimilarityResult where
  overall : ℝ
  artist_overlap : ℚ
  weighted_overlap : ℚ
  genre_match : ℝ
  shared_artists : List String
  shared_count : ℕ
  unique_to_profile1 : List String
  unique_to_profile2 : List String
  profile1_artist_count : ℕ
  profile2_artist_count : ℕ
  genre_breakdown_profile1 : List (String × ℚ)
  genre_breakdown_profile2 : List (String × ℚ)

/-- `taste_similarity.calculate_similarity`.  Python iterates the sets
`shared_artists`, `unique_to_1`, `unique_to_2` in unspecified set order
before the (stable) sort; the embedding iterates them in key insertion
order, a deterministic stand-in that agrees wherever no sort ties
occur. -/
noncomputable def calculate_similarity (profile1 profile2 : MusicData)
    (genre_map : List (String × String)) : SimilarityResult :=
  let counts1 := extract_artist_counts profile1
  let counts2 := extract_artist_counts profile2
  let artists1 := keyFinset counts1
  let artists2 := keyFinset counts2
  let artist_jaccard := jaccard_similarity artists1 artists2
  let artist_weighted := weighted_overlap counts1 counts2
  let genre_vec1 := extract_genre_vector profile1 genre_map
  let genre_vec2 := extract_genre_vector profile2 genre_map
  let genre_cosine := cosine_similarity genre_vec1 genre_vec2
  let sharedList := (counts1.map Prod.fst).filter
    (fun a => (counts2.map Prod.fst).contains a)
  let uniqueList1 := (counts1.map Prod.fst).filter
    (fun a => !(counts2.map Prod.fst).contains a)
  let uniqueList2 := (counts2.map Prod.fst).filter
    (fun a => !(counts1.map Prod.fst).contains a)
  let shared_sorted := sortByDesc (fun a => getD counts1 a 0 + getD counts2 a 0) sharedList
  let unique_1_sorted := sortByDesc (fun a => getD counts1 a 0) uniqueList1
  let unique_2_sorted := sortByDesc (fun a => getD counts2 a 0) uniqueList2
  { overall := overallScore (artist_jaccard : ℝ) (artist_weighted : ℝ) genre_cosine
    artist_overlap := pyRound1 (artist_jaccard * 100)
    weighted_overlap := pyRound1 (artist_weighted * 100)
    genre_match := pyRoundR (genre_cosine * 100)
    shared_artists := shared_sorted.take 50
    shared_count := (artists1 ∩ artists2).card
    unique_to_profile1 := unique_1_sorted.take 30
    unique_to_profile2 := unique_2_sorted.take 30
    profile1_artist_count := artists1.card
    profile2_artist_count := artists2.card
    genre_breakdown_profile1 := genre_vec1
    genre_breakdown_profile2 := genre_vec2 }

/-- One entry of the profile list `calculate_group_similarity` takes:
a dict with `id`, optional `name`, and `music_data`. -/
structure Profile where
  id : String
  name : Option String
  music_data : MusicData

/-- The fallback profile for positional access `profiles[i]` (always
in bounds where used). -/
def defaultProfile : Profile := ⟨"", none, ⟨[]⟩⟩

/-- One bridge-artist record of the group result. -/
structure BridgeArtist where
  name : String
  in_profiles : ℕ
  total_songs : ℕ

/-- One per-listener average-compatibility record of the group result. -/
structure AvgCompat where
  id : String
  name : String
  avg_compatibility : ℝ

/-- The dict `calculate_group_similarity` returns on success. -/
structure GroupResult where
  matrix : List (List ℝ)
  profile_ids : List String
  profile_names : List String
  consensus_artists : List String
  bridge_artists : List BridgeArtist
  avg_compatibility : List AvgCompat
  group_avg : ℝ

/-- Row `i` of the pairwise matrix as the Python loop builds it: 100.0
on the diagonal, a fresh pairwise call for `i < j`, and for `i > j` the
mirrored entry `matrix[j][i]` read from the rows built so far. -/
def buildRow (acc : List (List ℝ)) (simf : ℕ → ℕ → ℝ) (i n : ℕ) : List ℝ :=
  (List.range n).map (fun j =>
    if i = j then 100
    else if i < j then simf i j
    else (acc.getD j []).getD i 0)

/-- The pairwise matrix loop of `calculate_group_similarity`: rows are
appended in order, each row reading the mirrored entries from the rows
before it. -/
def buildMatrix (simf : ℕ → ℕ → ℝ) (n : ℕ) : List (List ℝ) :=
  (List.range n).foldl (fun acc i => acc ++ [buildRow acc simf i n]) []

/-- Python `p.get('name', f'Profile {i+1}')`. -/
def profileName (p : Profile) (i : ℕ) : String :=
  p.name.getD ("Profile " ++ toString (i + 1))

/-- The artist-name key list of one profile's Counter (the iteration
order of the Python set `set(counts.keys())`). -/
def artistKeys (p : Profile) : List String :=
  (extract_artist_counts p.music_data).map Prod.fst

/-- Total song count of artist `a` across the whole group:
`sum(c.get(a, 0) for c in all_counts)`. -/
def groupTotal (profiles : List Profile) (a : String) : ℕ :=
  (profiles.map (fun p => getD (extract_artist_counts p.music_data) a 0)).sum

/-- The consensus set `set.intersection(*all_artists_sets)` as a list:
the first profile's keys filtered to those every other profile also
has (empty when there are no profiles). -/
def consensusKeys (profiles : List Profile) : List String :=
  match profiles.map artistKeys with
  | [] => []
  | k0 :: rest => k0.filter (fun a => rest.all (fun k => k.contains a))

/-- The body of `taste_similarity.calculate_group_similarity` after its
`n < 2` guard.  Python iterates the consensus and union sets in
unspecified set order; the embedding uses key insertion order (first
list's order for the intersection, first occurrence for the union), a
deterministic stand-in. -/
noncomputable def buildGroupResult (profiles : List Profile)
    (genre_map : List (String × String)) : GroupResult :=
  let n := profiles.length
  let keyLists := profiles.map artistKeys
  let simf : ℕ → ℕ → ℝ := fun i j =>
    (calculate_similarity (profiles.getD i defaultProfile).music_data
      (profiles.getD j defaultProfile).music_data genre_map).overall
  let matrix := buildMatrix simf n
  let consensus_sorted := sortByDesc (groupTotal profiles) (consensusKeys profiles)
  let all_artists : List String := (keyLists.foldl (fun acc k => acc ++ k) []).dedup
  let bridge_artists : List BridgeArtist := all_artists.filterMap (fun a =>
    let in_profiles := (keyLists.filter (fun k => k.contains a)).length
    if 1 < in_profiles ∧ in_profiles < n then
      some ⟨a, in_profiles, groupTotal profiles a⟩
    else none)
  let bridge_sorted :=
    sortByDesc (fun b : BridgeArtist => toLex (b.in_profiles, b.total_songs)) bridge_artists
  let avg_compatibility : List AvgCompat := (List.range n).map (fun i =>
    let others := ((List.range n).filter (fun j => !(i == j))).map
      (fun j => (matrix.getD i []).getD j 0)
    let avg : ℝ := if others.length ≠ 0 then others.sum / others.length else 0
    ⟨(profiles.getD i defaultProfile).id,
     profileName (profiles.getD i defaultProfile) i,
     pyRoundR avg⟩)
  let upperSum : ℝ := ((List.range n).map (fun i =>
    (((List.range n).filter (fun j => i < j)).map
      (fun j => (matrix.getD i []).getD j 0)).sum)).sum
  { matrix := matrix
    profile_ids := profiles.map (fun p => p.id)
    profile_names := (List.range n).map (fun i => profileName (profiles.getD i defaultProfile) i)
    consensus_artists := consensus_sorted.take 20
    bridge_artists := bridge_sorted.take 20
    avg_compatibility := avg_compatibility
    group_avg := pyRoundR (if 1 < n then upperSum / ((n * (n - 1) : ℝ) / 2) else 0) }

/-- `taste_similarity.calculate_group_similarity`: the `n < 2` case
returns the error dict `{"error": "Need at least 2 profiles to
compare"}`, every other case the full result. -/
noncomputable def calculate_group_similarity (profiles : List Profile)
    (genre_map : List (String × String)) : Except String GroupResult :=
  if profiles.length < 2 then Except.error "Need at least 2 profiles to compare"
  else Except.ok (buildGroupResult profiles genre_map)

/-- `matrix[i][j]` (total, with 0/[] defaults; always in bounds where
used). -/
def matrixEntry (m : List (List ℝ)) (i j : ℕ) : ℝ := (m.getD i []).getD j 0

/-- A library-artist record (`{"id", "name", "thumbnail", ...}`); a
missing string field reads as `""` via `.get(..., "")`. -/
structure LibraryArtist where
  id : String
  name : String
  thumbnail : String
deriving DecidableEq

/-- The per-artist info dict of `MusicGraphBuilder.artist_info`.
Python builds it incrementally ({"id","name","song_count"} first,
library/related fields merged later); absent fields are modelled by
the defaults the code's `.get` calls supply. -/
structure ArtistInfo where
  id : String := ""
  name : String := ""
  song_count : ℕ := 0
  thumbnail : String := ""
  in_library : Bool := false
  is_related : Bool := false
  description : String := ""
  subscribers : String := ""
deriving DecidableEq

/-- One undirected edge of the `networkx` graph, with its attribute
dict: `weight`, the contributing `songs` (collaboration edges only;
`[]` stands for the attribute being absent), and its type tag. -/
structure Edge where
  u : String
  v : String
  weight : ℚ
  songs : List String
  edgeType : String
deriving DecidableEq

/-- The mutable state of a `MusicGraphBuilder`: the undirected edge
set of `self.graph` plus the two dicts `artist_songs` and
`artist_info` (association lists in insertion order). -/
structure BuilderState where
  edges : List Edge := []
  artist_songs : List (String × List Song) := []
  artist_info : List (String × ArtistInfo) := []
deriving DecidableEq

/-- `defaultdict(list)` append: `d[k].append(s)`. -/
def appendSong : List (String × List Song) → String → Song → List (String × List Song)
  | [], k, s => [(k, [s])]
  | p :: t, k, s => if p.1 = k then (p.1, p.2 ++ [s]) :: t else p :: appendSong t k s

/-- `defaultdict(list)` append for string lists. -/
def appendId : List (String × List String) → String → String → List (String × List String)
  | [], k, s => [(k, [s])]
  | p :: t, k, s => if p.1 = k then (p.1, p.2 ++ [s]) :: t else p :: appendId t k s

/-- Python `k in d` on an association list. -/
def containsKey {α : Type} (l : List (String × α)) (k : String) : Bool :=
  l.any (fun p => p.1 == k)

/-- Python `d[k] = v`: replace in place or append a fresh entry. -/
def setKey {α : Type} : List (String × α) → String → α → List (String × α)
  | [], k, v => [(k, v)]
  | p :: t, k, v => if p.1 = k then (k, v) :: t else p :: setKey t k v

/-- In-place update of the entry at `k` (every call site has checked
or established that `k` is present). -/
def modifyKey {α : Type} (l : List (String × α)) (k : String) (f : α → α) :
    List (String × α) :=
  l.map (fun p => if p.1 = k then (p.1, f p.2) else p)

/-- The body of `_process_liked_songs`' inner loop: one artist credit
of `song`.  A credit with a nonempty id AND a nonempty name appends
the (whole, unmodified) song record to `artist_songs[id]`, creates the
info entry on first sight, and bumps its `song_count`; any other
credit leaves the state untouched. -/
def likedSongCredit (song : Song) (st1 : BuilderState) (artist : ArtistCredit) :
    BuilderState :=
  let artist_id := artist.id
  let artist_name := artist.name
  if artist_id ≠ "" ∧ artist_name ≠ "" then
    let st2 := {st1 with artist_songs := appendSong st1.artist_songs artist_id song}
    let st3 :=
      if containsKey st2.artist_info artist_id then st2
      else {st2 with artist_info := (setKey st2.artist_info artist_id
        {id := artist_id, name := artist_name, song_count := 0})}
    {st3 with artist_info := (modifyKey st3.artist_info artist_id
      (fun info => {info with song_count := info.song_count + 1}))}
  else st1

/-- `MusicGraphBuilder._process_liked_songs`. -/
def process_liked_songs (st : BuilderState) (songs : List Song) : BuilderState :=
  songs.foldl (fun st0 song => song.artists.foldl (likedSongCredit song) st0) st

/-- `MusicGraphBuilder._process_library_artists`: only the id is
required; the entry is created if absent, then thumbnail and
`in_library` are set. -/
def process_library_artists (st : BuilderState) (artists : List LibraryArtist) :
    BuilderState :=
  artists.foldl (fun st0 artist =>
    let artist_id := artist.id
    if artist_id ≠ "" then
      let st1 :=
        if containsKey st0.artist_info artist_id then st0
        else {st0 with artist_info := (setKey st0.artist_info artist_id
          {id := artist_id, name := artist.name, song_count := 0})}
      {st1 with artist_info := (modifyKey st1.artist_info artist_id
        (fun info => {info with thumbnail := artist.thumbnail, in_library := true}))}
    else st0) st

/-- `networkx` unordered-edge lookup: does `e` connect `{a, b}`? -/
def edgeMatches (e : Edge) (a b : String) : Bool :=
  (e.u == a && e.v == b) || (e.u == b && e.v == a)

/-- `self.graph.has_edge(a, b)`. -/
def hasEdge (es : List Edge) (a b : String) : Bool :=
  es.any (fun e => edgeMatches e a b)

/-- The edge add-or-accumulate step of `_build_co_occurrence_edges`:
an existing edge between the pair gains weight 1 and the song id,
otherwise a `collaboration` edge of weight 1 is created. -/
def addCollabEdge (es : List Edge) (a1 a2 song_id : String) : List Edge :=
  if hasEdge es a1 a2 then
    es.map (fun e => if edgeMatches e a1 a2 then
      {e with weight := e.weight + 1, songs := e.songs ++ [song_id]} else e)
  else es ++ [{u := a1, v := a2, weight := 1, songs := [song_id],
               edgeType := "collaboration"}]

/-- The `for i, a1 in enumerate(artists): for a2 in artists[i+1:]`
double loop over one song's accumulated artist-id list, skipping
pairs with equal ids. -/
def collabPairs (es : List Edge) (song_id : String) : List String → List Edge
  | [] => es
  | a1 :: rest =>
    collabPairs
      (rest.foldl (fun es2 a2 =>
        if a1 ≠ a2 then addCollabEdge es2 a1 a2 song_id else es2) es)
      song_id rest

/-- The `song_artists` dict of `_build_co_occurrence_edges`: rebuilt
from the inverted index `artist_songs`, so each song's artist-id list
is appended once per crediting artist whose list holds the song. -/
def songArtists (artist_songs : List (String × List Song)) :
    List (String × List String) :=
  artist_songs.foldl (fun acc p =>
    p.2.foldl (fun acc2 song =>
      if song.id ≠ "" then
        song.artists.foldl (fun acc3 a =>
          if a.id ≠ "" then appendId acc3 song.id a.id else acc3) acc2
      else acc2) acc) []

/-- `MusicGraphBuilder._build_co_occurrence_edges`. -/
def build_co_occurrence_edges (st : BuilderState) : BuilderState :=
  let song_artists := songArtists st.artist_songs
  {st with edges := song_artists.foldl (fun es p =>
    if 1 < p.2.length then collabPairs es p.1 p.2 else es) st.edges}

/-- One related-artist record of the external lookup result. -/
structure RelatedArtist where
  id : String
  name : String
deriving DecidableEq

/-- The artist-info dict `YTMusicClient.get_artist_info` returns;
`thumbnail` is optional because its absence falls back to the value
already stored (`info.get("thumbnail", current)`). -/
structure ApiArtistInfo where
  description : String := ""
  subscribers : String := ""
  thumbnail : Option String := none
  related_artists : List RelatedArtist := []
deriving DecidableEq

/-- One iteration of the inner `for related in ...` loop of
`add_related_artists`: a nonempty related id gets a minimal
`is_related` node if unknown and a `similar` edge of weight 0.5
(accumulating onto an existing edge without changing its type). -/
def relatedStep (artist_id : String) (st : BuilderState) (related : RelatedArtist) :
    BuilderState :=
  let related_id := related.id
  if related_id ≠ "" then
    let st1 :=
      if containsKey st.artist_info related_id then st
      else {st with artist_info := (setKey st.artist_info related_id
        {id := related_id, name := related.name, song_count := 0, is_related := true})}
    let newEdges :=
      if hasEdge st1.edges artist_id related_id then
        st1.edges.map (fun e => if edgeMatches e artist_id related_id then
          {e with weight := e.weight + 1/2} else e)
      else st1.edges ++ [{u := artist_id, v := related_id, weight := 1/2,
                          songs := [], edgeType := "similar"}]
    {st1 with edges := newEdges}
  else st

/-- `MusicGraphBuilder.add_related_artists`: the first 50 known artist
ids (snapshot taken before the loop), each looked up through the
client; on a hit the stored info is updated and the first
`limit_per_artist` related records are processed. -/
def add_related_artists (st : BuilderState) (client : String → Option ApiArtistInfo)
    (limit_per_artist : ℕ) : BuilderState :=
  let artist_ids := (st.artist_info.map Prod.fst).take 50
  artist_ids.foldl (fun st0 artist_id =>
    if artist_id = "" then st0
    else
      match client artist_id with
      | none => st0
      | some info =>
        let st1 := {st0 with artist_info := (modifyKey st0.artist_info artist_id
          (fun cur => {cur with
            description := info.description,
            subscribers := info.subscribers,
            thumbnail := info.thumbnail.getD cur.thumbnail}))}
        (info.related_artists.take limit_per_artist).foldl (relatedStep artist_id) st1) st

/-- One node of the export graph, as `build_graph_nodes` +
`calculate_node_importance` read and write it: `importance` is absent
(`none`) until the ranking writes it. -/
structure Node where
  id : String
  name : String
  song_count : ℕ
  importance : Option ℚ
deriving DecidableEq

/-- The `networkx` graph as `calculate_node_importance` sees it. -/
structure Graph where
  nodes : List Node
  edges : List Edge
deriving DecidableEq

/-- Total weight between `u` and `v`: the stochastic-matrix input of
`nx.pagerank` on the undirected weighted graph. -/
def edgeWeight (g : Graph) (u v : String) : ℚ :=
  ((g.edges.filter (fun e => edgeMatches e u v)).map (fun e => e.weight)).sum

/-- Weighted out-degree of `u` (the row sum the stochastic rescaling
divides by; a node with zero weighted degree is dangling). -/
def outDeg (ids : List String) (w : String → String → ℚ) (u : String) : ℚ :=
  (ids.map (w u)).sum

/-- One power-iteration step of `nx.pagerank` (damping 0.85, uniform
personalization and dangling distribution):
`x'(v) = α·Σ_u x(u)·w(u,v)/deg(u) + α·(Σ_dangling x(u))/N + (1-α)/N`. -/
def prStep (ids : List String) (w : String → String → ℚ) (N : ℕ)
    (x : String → ℚ) : String → ℚ :=
  fun v =>
    let danglesum : ℚ :=
      (85/100) * ((ids.filter (fun u => outDeg ids w u == 0)).map x).sum
    (85/100) * ((ids.map (fun u =>
        if outDeg ids w u ≠ 0 then x u * w u v / outDeg ids w u else 0)).sum)
      + danglesum * (1 / (N : ℚ)) + (15/100) * (1 / (N : ℚ))

/-- The `nx.pagerank` power-iteration loop: stop (returning the new
vector) as soon as the L1 change drops below `N * 1e-06`, give up
(`none`, Python raises `PowerIterationFailedConvergence`) when the
100-iteration budget runs out. -/
def prLoop (ids : List String) (w : String → String → ℚ) (N : ℕ) :
    ℕ → (String → ℚ) → Option (String → ℚ)
  | 0, _ => none
  | fuel + 1, x =>
    let xn := prStep ids w N x
    let err : ℚ := (ids.map (fun v => |xn v - x v|)).sum
    if err < (N : ℚ) * (1/1000000) then some xn else prLoop ids w N fuel xn

/-- `nx.pagerank(graph, weight="weight")` with its default damping
0.85, tolerance 1e-06 and iteration cap 100, in exact arithmetic: the
importance vector keyed by node id (an empty graph yields the empty
dict, modelled as the zero vector). -/
def pagerank (g : Graph) : Option (String → ℚ) :=
  let ids := g.nodes.map (fun nd => nd.id)
  let N := ids.length
  if N = 0 then some (fun _ => 0)
  else prLoop ids (edgeWeight g) N 100 (fun _ => 1 / (N : ℚ))

/-- `MusicGraphBuilder.calculate_node_importance`: on a nonempty graph
write every node's pagerank score, then boost every node by
`1 + song_count * 0.1`, an absent importance defaulting to 0.01.
`none` models the pagerank convergence failure exception. -/
def calculate_node_importance (g : Graph) : Option Graph :=
  (if 0 < g.nodes.length then
    (pagerank g).map (fun pr =>
      {g with nodes := (g.nodes.map (fun nd => {nd with importance := some (pr nd.id)}))})
  else some g).map (fun g2 =>
    {g2 with nodes := (g2.nodes.map (fun nd =>
      {nd with importance :=
        (some ((nd.importance.getD (1/100)) * (1 + (nd.song_count : ℚ) * (1/10))))}))})

/-! ## General helper lemmas -/

theorem foldl_filter_of_id {α β : Type} (p : α → Bool) (f : β → α → β)
    (h : ∀ b a, p a = false → f b a = b) :
    ∀ (l : List α) (b : β), (l.filter p).foldl f b = l.foldl f b := by
  intro l
  induction l with
  | nil => intro b; rfl
  | cons a t ih =>
    intro b
    cases hp : p a with
    | true => simp only [List.filter_cons, hp, if_pos, List.foldl_cons, ih]
    | false => simp only [List.filter_cons, hp, Bool.false_eq_true, if_neg,
        List.foldl_cons, ih, h b a hp, not_false_iff]

theorem perm_insertByDesc {α K : Type} [LinearOrder K] (key : α → K) (a : α) :
    ∀ l : List α, (insertByDesc key a l).Perm (a :: l) := by
  intro l
  induction l with
  | nil => simp [insertByDesc]
  | cons b t ih =>
    by_cases hb : key b ≤ key a
    · simp [insertByDesc, hb]
    · simp only [insertByDesc, if_neg hb]
      exact (ih.cons b).trans (List.Perm.swap a b t)

theorem perm_sortByDesc {α K : Type} [LinearOrder K] (key : α → K) :
    ∀ l : List α, (sortByDesc key l).Perm l := by
  intro l
  induction l with
  | nil => simp [sortByDesc]
  | cons a t ih =>
    exact (perm_insertByDesc key a (sortByDesc key t)).trans (ih.cons a)

theorem mem_sortByDesc {α K : Type} [LinearOrder K] (key : α → K) (l : List α) (x : α) :
    x ∈ sortByDesc key l ↔ x ∈ l :=
  (perm_sortByDesc key l).mem_iff

theorem length_sortByDesc {α K : Type} [LinearOrder K] (key : α → K) (l : List α) :
    (sortByDesc key l).length = l.length :=
  (perm_sortByDesc key l).length_eq

theorem sorted_insertByDesc {α K : Type} [LinearOrder K] (key : α → K) (a : α)
    (l : List α) (h : l.Sorted (fun x y => key y ≤ key x)) :
    (insertByDesc key a l).Sorted (fun x y => key y ≤ key x) := by
  induction l with
  | nil => simp [insertByDesc]
  | cons b t ih =>
    rw [List.sorted_cons] at h
    by_cases hb : key b ≤ key a
    · rw [insertByDesc, if_pos hb, List.sorted_cons]
      refine ⟨?_, List.sorted_cons.mpr h⟩
      intro x hx
      rcases List.mem_cons.mp hx with rfl | hx
      · exact hb
      · exact (h.1 x hx).trans hb
    · rw [insertByDesc, if_neg hb, List.sorted_cons]
      refine ⟨?_, ih h.2⟩
      intro x hx
      rcases List.mem_cons.mp ((perm_insertByDesc key a t).mem_iff.mp hx) with rfl | hx
      · exact le_of_lt (lt_of_not_le hb)
      · exact h.1 x hx

theorem sorted_sortByDesc {α K : Type} [LinearOrder K] (key : α → K) :
    ∀ l : List α, (sortByDesc key l).Sorted (fun x y => key y ≤ key x) := by
  intro l
  induction l with
  | nil => simp [sortByDesc]
  | cons a t ih => exact sorted_insertByDesc key a _ ih

theorem keyFinset_eq_empty {α : Type} (l : List (String × α)) :
    keyFinset l = ∅ ↔ l = [] := by
  rw [keyFinset, List.toFinset_eq_empty_iff, List.map_eq_nil_iff]

/-! ## The pairwise matrix loop, characterized -/

theorem buildMatrix_eq (simf : ℕ → ℕ → ℝ) (n : ℕ) :
    buildMatrix simf n = (List.range n).map (fun i => (List.range n).map (fun j =>
      if i = j then 100 else if i < j then simf i j else simf j i)) := by
  set mv : ℕ → ℕ → ℝ := fun i j =>
    if i = j then 100 else if i < j then simf i j else simf j i with hmv
  suffices h : ∀ m, m ≤ n →
      (List.range m).foldl (fun acc i => acc ++ [buildRow acc simf i n]) [] =
        (List.range m).map (fun i => (List.range n).map (mv i)) from h n le_rfl
  intro m
  induction m with
  | zero => intro _; simp
  | succ m ih =>
    intro hm
    rw [List.range_succ, List.foldl_append, List.foldl_cons, List.foldl_nil,
      ih (Nat.le_of_succ_le hm), List.map_append]
    congr 1
    simp only [List.map_cons, List.map_nil]
    congr 1
    unfold buildRow
    apply List.map_congr_left
    intro j hj
    have hjn : j < n := List.mem_range.mp hj
    by_cases hmj : m = j
    · simp [hmv, hmj]
    · by_cases hlt : m < j
      · simp [hmv, hmj, hlt]
      · have hjm : j < m := by omega
        rw [if_neg hmj, if_neg hlt]
        have hrow : (((List.range m).map (fun i => (List.range n).map (mv i))).getD j []) =
            (List.range n).map (mv j) := by
          rw [List.getD_eq_getElem?_getD, List.getElem?_map, List.getElem?_range hjm]
          rfl
        rw [hrow, List.getD_eq_getElem?_getD, List.getElem?_map,
          List.getElem?_range (by omega : m < n)]
        simp only [Option.map_some', Option.getD_some, hmv]
        rw [if_neg (by omega : ¬ j = m), if_pos hjm]
        rw [if_neg hmj, if_neg hlt]

theorem matrixEntry_buildMatrix (simf : ℕ → ℕ → ℝ) (n i j : ℕ)
    (hi : i < n) (hj : j < n) :
    matrixEntry (buildMatrix simf n) i j =
      if i = j then 100 else if i < j then simf i j else simf j i := by
  have hrow : (buildMatrix simf n).getD i [] = (List.range n).map (fun j =>
      if i = j then 100 else if i < j then simf i j else simf j i) := by
    rw [buildMatrix_eq, List.getD_eq_getElem?_getD, List.getElem?_map,
      List.getElem?_range hi]
    rfl
  rw [matrixEntry, hrow, List.getD_eq_getElem?_getD, List.getElem?_map,
    List.getElem?_range hj]
  rfl

theorem length_buildMatrix (simf : ℕ → ℕ → ℝ) (n : ℕ) :
    (buildMatrix simf n).length = n := by
  rw [buildMatrix_eq, List.length_map, List.length_range]

theorem length_buildMatrix_row (simf : ℕ → ℕ → ℝ) (n i : ℕ) (hi : i < n) :
    ((buildMatrix simf n).getD i []).length = n := by
  rw [buildMatrix_eq, List.getD_eq_getElem?_getD, List.getElem?_map,
    List.getElem?_range hi]
  simp

/-! ## Monotonicity of the Python rounding -/

theorem le_roundHalfEvenR (x : ℝ) : ⌊x⌋ ≤ roundHalfEvenR x := by
  simp only [roundHalfEvenR]
  split_ifs <;> omega

theorem roundHalfEvenR_le (x : ℝ) : roundHalfEvenR x ≤ ⌊x⌋ + 1 := by
  simp only [roundHalfEvenR]
  split_ifs <;> omega

theorem roundHalfEvenR_mono {x y : ℝ} (h : x ≤ y) :
    roundHalfEvenR x ≤ roundHalfEvenR y := by
  have hf : ⌊x⌋ ≤ ⌊y⌋ := Int.floor_mono h
  rcases lt_or_eq_of_le hf with hlt | heq
  · calc roundHalfEvenR x ≤ ⌊x⌋ + 1 := roundHalfEvenR_le x
    _ ≤ ⌊y⌋ := by omega
    _ ≤ roundHalfEvenR y := le_roundHalfEvenR y
  · simp only [roundHalfEvenR]
    rw [← heq]
    split_ifs <;>
      first
        | omega
        | (exfalso; linarith)

theorem pyRoundR_mono {x y : ℝ} (h : x ≤ y) : pyRoundR x ≤ pyRoundR y := by
  unfold pyRoundR
  have h10 : x * 10 ≤ y * 10 := by linarith
  have := roundHalfEvenR_mono h10
  have hc : ((roundHalfEvenR (x * 10) : ℝ)) ≤ ((roundHalfEvenR (y * 10) : ℝ)) :=
    Int.cast_le.mpr this
  linarith

/-! ## Pagerank on an edgeless graph -/

theorem edgeWeight_of_no_edges (g : Graph) (h : g.edges = []) (u v : String) :
    edgeWeight g u v = 0 := by
  simp [edgeWeight, h]

theorem outDeg_of_zero_weight (ids : List String) (w : String → String → ℚ)
    (hw : ∀ u v, w u v = 0) (u : String) : outDeg ids w u = 0 := by
  apply List.sum_eq_zero
  intro x hx
  rcases List.mem_map.mp hx with ⟨v, _, rfl⟩
  exact hw u v

theorem prStep_uniform (ids : List String) (w : String → String → ℚ)
    (hw : ∀ u v, w u v = 0) (N : ℕ) (hN : ids.length = N) (h1 : 1 ≤ N)
    (v : String) : prStep ids w N (fun _ => 1 / (N : ℚ)) v = 1 / (N : ℚ) := by
  have hod : ∀ u, outDeg ids w u = 0 := outDeg_of_zero_weight ids w hw
  have hNQ : ((N : ℚ)) ≠ 0 := Nat.cast_ne_zero.mpr (by omega)
  have hfilter : ids.filter (fun u => outDeg ids w u == 0) = ids :=
    List.filter_eq_self.mpr (fun a _ => by simp [hod a])
  have hzero : (ids.map (fun u =>
      if outDeg ids w u ≠ 0 then 1 / (N : ℚ) * w u v / outDeg ids w u
      else 0)).sum = 0 := by
    apply List.sum_eq_zero
    intro x hx
    rcases List.mem_map.mp hx with ⟨u, _, rfl⟩
    simp [hod u]
  have hconst : (ids.map (fun _ => 1 / (N : ℚ))).sum = (N : ℚ) * (1 / (N : ℚ)) := by
    rw [List.map_const', List.sum_replicate, hN, nsmul_eq_mul]
  simp only [prStep]
  rw [hfilter, hzero, hconst, mul_one_div (N : ℚ) (N : ℚ), div_self hNQ]
  ring

theorem prLoop_succ (ids : List String) (w : String → String → ℚ) (N fuel : ℕ)
    (x : String → ℚ) :
    prLoop ids w N (fuel + 1) x =
      (let xn := prStep ids w N x
       if (ids.map (fun v => |xn v - x v|)).sum < (N : ℚ) * (1/1000000) then some xn
       else prLoop ids w N fuel xn) := rfl

theorem pagerank_no_edges (g : Graph) (h : g.edges = []) (h1 : 1 ≤ g.nodes.length) :
    pagerank g = some (prStep (g.nodes.map (fun nd => nd.id)) (edgeWeight g)
      (g.nodes.length) (fun _ => 1 / (g.nodes.length : ℚ)))
    ∧ ∀ v, prStep (g.nodes.map (fun nd => nd.id)) (edgeWeight g)
      (g.nodes.length) (fun _ => 1 / (g.nodes.length : ℚ)) v = 1 / (g.nodes.length : ℚ) := by
  set ids := g.nodes.map (fun nd => nd.id) with hids
  have hlen : ids.length = g.nodes.length := List.length_map _ _
  have huni : ∀ v, prStep ids (edgeWeight g) (g.nodes.length)
      (fun _ => 1 / (g.nodes.length : ℚ)) v = 1 / (g.nodes.length : ℚ) :=
    prStep_uniform ids (edgeWeight g) (edgeWeight_of_no_edges g h)
      g.nodes.length hlen h1
  constructor
  · simp only [pagerank]
    rw [← hids, hlen]
    rw [if_neg (by omega)]
    rw [show (100 : ℕ) = 99 + 1 from rfl, prLoop_succ]
    have herr : (ids.map (fun v =>
        |prStep ids (edgeWeight g) (g.nodes.length) (fun _ => 1 / (g.nodes.length : ℚ)) v -
          (fun _ => 1 / (g.nodes.length : ℚ)) v|)).sum = 0 := by
      apply List.sum_eq_zero
      intro x hx
      rcases List.mem_map.mp hx with ⟨v, _, rfl⟩
      rw [huni v]
      simp
    simp only [herr]
    rw [if_pos (by
      have hq : (1 : ℚ) ≤ (g.nodes.length : ℚ) := by exact_mod_cast h1
      nlinarith)]
  · exact huni

/-! ## Claim C1 -/

/-- C1: evaluating the graph builder on one liked song credited to the
three distinct artists x, y, z (all with ids and names) refutes the
claimed weights: the build yields the expected 3 collaboration edges,
but each edge carries weight 9 — not 1.0 — and its song list holds the
single song id nine times, because `_build_co_occurrence_edges`
rebuilds each song's artist list from the inverted index
`artist_songs`, appending one copy of the full id list per crediting
artist. -/
theorem C1_three_artist_song_gives_weight_nine :
    (build_co_occurrence_edges (process_liked_songs {}
        [⟨"s1", [⟨"x", "X"⟩, ⟨"y", "Y"⟩, ⟨"z", "Z"⟩]⟩])).edges.map
      (fun e => (e.u, e.v, e.weight, e.songs, e.edgeType)) =
    [("x", "y", 9, List.replicate 9 "s1", "collaboration"),
     ("x", "z", 9, List.replicate 9 "s1", "collaboration"),
     ("y", "z", 9, List.replicate 9 "s1", "collaboration")] ∧ (9 : ℚ) ≠ 1 := by
  constructor
  · with_unfolding_all rfl
  · norm_num

/-! ## Claim C2 -/

/-- C2 (amended): on a graph with k ≥ 1 nodes and no edges,
`calculate_node_importance` gives every node the same base importance
1/k — the uniform pagerank value, not the claimed 0.01 default — and
final importance (1/k)·(1 + song_count·0.1). -/
theorem C2_edgeless_importance_uniform (g : Graph) (h : g.edges = [])
    (h1 : 1 ≤ g.nodes.length) :
    calculate_node_importance g = some {g with nodes := (g.nodes.map (fun nd =>
      {nd with importance :=
        (some ((1 / (g.nodes.length : ℚ)) * (1 + (nd.song_count : ℚ) * (1/10))))}))} := by
  obtain ⟨hpr, huni⟩ := pagerank_no_edges g h h1
  simp only [calculate_node_importance]
  rw [if_pos (by omega), hpr]
  simp only [Option.map_some']
  congr 1
  congr 1
  simp only [List.map_map]
  apply List.map_congr_left
  intro nd _
  simp only [Function.comp_apply, huni nd.id, Option.getD_some]

/-- C2 witness: the amended theorem applied to the one-node edgeless
graph (a node with 2 songs): its importance comes out as
(1/1)·(1 + 2·0.1) = 1.2. -/
theorem C2_edgeless_importance_uniform_witness :
    calculate_node_importance ⟨[⟨"a", "A", 2, none⟩], []⟩ =
      some ⟨[⟨"a", "A", 2, some (6/5)⟩], []⟩ := by
  rw [C2_edgeless_importance_uniform ⟨[⟨"a", "A", 2, none⟩], []⟩ rfl (by decide)]
  with_unfolding_all rfl

/-- C2 counterexample: on the one-node edgeless graph the node's final
importance is 1 (base 1/k = 1), not the 0.01·(1 + 0·0.1) the claim's
uniform-0.01 base would give. -/
theorem C2_edgeless_importance_not_one_percent :
    (calculate_node_importance ⟨[⟨"a", "A", 0, none⟩], []⟩).map
      (fun g => g.nodes.map (fun nd => nd.importance)) = some [some 1]
    ∧ (1 : ℚ) ≠ (1/100) * (1 + (0 : ℚ) * (1/10)) := by
  constructor
  · with_unfolding_all rfl
  · norm_num

/-! ## Claim C4 -/

/-- C4 (amended): a song artist credit missing an id or a name is
silently skipped (dropping it from the credit iteration changes
nothing — though the stored song record itself keeps its full credit
list); library-artist records are skipped only when the id is missing;
a related-artist record with an empty id is a no-op for the builder
state. -/
theorem C4_malformed_record_skipping :
    (∀ (st : BuilderState) (songs : List Song),
      process_liked_songs st songs = songs.foldl (fun st0 song =>
        (song.artists.filter
          (fun a => decide (a.id ≠ "" ∧ a.name ≠ ""))).foldl
            (likedSongCredit song) st0) st)
  ∧ (∀ (st : BuilderState) (artists : List LibraryArtist),
      process_library_artists st artists =
        process_library_artists st (artists.filter (fun a => decide (a.id ≠ ""))))
  ∧ (∀ (artist_id : String) (st : BuilderState) (related : RelatedArtist),
      related.id = "" → relatedStep artist_id st related = st) := by
  refine ⟨?_, ?_, ?_⟩
  · intro st songs
    unfold process_liked_songs
    congr 1
    funext st0 song
    refine (foldl_filter_of_id _ _ ?_ song.artists st0).symm
    intro b a ha
    have hna : ¬(a.id ≠ "" ∧ a.name ≠ "") := of_decide_eq_false ha
    simp only [likedSongCredit, if_neg hna]
  · intro st artists
    unfold process_library_artists
    refine (foldl_filter_of_id _ _ ?_ artists st).symm
    intro b a ha
    have hna : ¬(a.id ≠ "") := of_decide_eq_false ha
    simp only [if_neg hna]
  · intro artist_id st related hr
    unfold relatedStep
    rw [if_neg (by simp [hr])]

/-- C4 counterexample: a library-artist record with an id but no name
is NOT skipped — it creates a node (with empty name) in `artist_info`,
contradicting the claim that records missing a name are skipped for
library-artist records too. -/
theorem C4_nameless_library_artist_ingested :
    process_library_artists {} [⟨"A", "", ""⟩] ≠ ({} : BuilderState)
    ∧ (process_library_artists {} [⟨"A", "", ""⟩]).artist_info =
        [("A", ⟨"A", "", 0, "", true, false, "", ""⟩)] := by
  constructor
  · decide
  · with_unfolding_all rfl

/-! ## Claim C6 -/

/-- C6: listener A's songs credit X, X, Y and listener B's credit
X, Z, Z (one artist per song); `calculate_similarity` reports
artist_overlap 33.3, weighted_overlap 20.0 and shared_artists ["X"]. -/
theorem C6_shared_artist_scenario :
    (calculate_similarity
      ⟨[⟨"a1", [⟨"i1", "X"⟩]⟩, ⟨"a2", [⟨"i1", "X"⟩]⟩, ⟨"a3", [⟨"i2", "Y"⟩]⟩]⟩
      ⟨[⟨"b1", [⟨"i1", "X"⟩]⟩, ⟨"b2", [⟨"i3", "Z"⟩]⟩, ⟨"b3", [⟨"i3", "Z"⟩]⟩]⟩
      []).artist_overlap = 33.3
  ∧ (calculate_similarity
      ⟨[⟨"a1", [⟨"i1", "X"⟩]⟩, ⟨"a2", [⟨"i1", "X"⟩]⟩, ⟨"a3", [⟨"i2", "Y"⟩]⟩]⟩
      ⟨[⟨"b1", [⟨"i1", "X"⟩]⟩, ⟨"b2", [⟨"i3", "Z"⟩]⟩, ⟨"b3", [⟨"i3", "Z"⟩]⟩]⟩
      []).weighted_overlap = 20.0
  ∧ (calculate_similarity
      ⟨[⟨"a1", [⟨"i1", "X"⟩]⟩, ⟨"a2", [⟨"i1", "X"⟩]⟩, ⟨"a3", [⟨"i2", "Y"⟩]⟩]⟩
      ⟨[⟨"b1", [⟨"i1", "X"⟩]⟩, ⟨"b2", [⟨"i3", "Z"⟩]⟩, ⟨"b3", [⟨"i3", "Z"⟩]⟩]⟩
      []).shared_artists = ["X"] := by
  refine ⟨?_, ?_, ?_⟩ <;> with_unfolding_all rfl

/-! ## Claim C5 -/

/-- C5 counterexample: when the external lookup lists an artist as its
own related artist, `add_related_artists` creates a self-loop edge
(x, x), refuting the claim that the graph never contains one. -/
theorem C5_related_self_loop :
    ((add_related_artists ⟨[], [], [("x", ⟨"x", "X", 0, "", false, false, "", ""⟩)]⟩
        (fun aid => if aid = "x" then some ⟨"", "", none, [⟨"x", "X"⟩]⟩ else none)
        5).edges.map (fun e => (e.u, e.v))) = [("x", "x")] := by
  with_unfolding_all rfl

/-- A property preserved by every step of a fold is preserved by the
fold. -/
theorem foldl_preserves {α β : Type} (P : β → Prop) (f : β → α → β) :
    ∀ (l : List α) (b : β), (∀ b0 a, a ∈ l → P b0 → P (f b0 a)) → P b →
      P (l.foldl f b) := by
  intro l
  induction l with
  | nil => intro b _ hb; exact hb
  | cons a t ih =>
    intro b h hb
    exact ih (f b a) (fun b0 x hx => h b0 x (List.mem_cons_of_mem a hx))
      (h b a (List.mem_cons_self a t) hb)

/-- No-self-loop invariant of the edge list. -/
def noSelfLoop (es : List Edge) : Prop := ∀ e ∈ es, e.u ≠ e.v

theorem addCollabEdge_no_self (es : List Edge) (a1 a2 song_id : String)
    (h : noSelfLoop es) (hne : a1 ≠ a2) : noSelfLoop (addCollabEdge es a1 a2 song_id) := by
  unfold addCollabEdge
  split_ifs with hhe
  · intro e he
    rcases List.mem_map.mp he with ⟨e0, he0, rfl⟩
    by_cases hm : edgeMatches e0 a1 a2
    · simp only [hm, if_pos]
      exact h e0 he0
    · simp only [hm, if_neg, Bool.false_eq_true, not_false_iff]
      exact h e0 he0
  · intro e he
    rcases List.mem_append.mp he with he | he
    · exact h e he
    · rcases List.mem_singleton.mp he with rfl
      exact hne

theorem collabPairs_no_self (song_id : String) :
    ∀ (l : List String) (es : List Edge), noSelfLoop es →
      noSelfLoop (collabPairs es song_id l) := by
  intro l
  induction l with
  | nil => intro es h; exact h
  | cons a1 rest ih =>
    intro es h
    unfold collabPairs
    apply ih
    apply foldl_preserves noSelfLoop _ rest es _ h
    intro es2 a2 _ hinv
    by_cases hne : a1 ≠ a2
    · rw [if_pos hne]; exact addCollabEdge_no_self es2 a1 a2 song_id hinv hne
    · rw [if_neg hne]; exact hinv

theorem relatedStep_edges (artist_id : String) (st : BuilderState)
    (related : RelatedArtist) :
    (relatedStep artist_id st related).edges =
      if related.id ≠ "" then
        (if hasEdge st.edges artist_id related.id then
          st.edges.map (fun e => if edgeMatches e artist_id related.id then
            {e with weight := e.weight + 1/2} else e)
        else st.edges ++ [⟨artist_id, related.id, 1/2, [], "similar"⟩])
      else st.edges := by
  by_cases hid : related.id ≠ ""
  · by_cases hck : containsKey st.artist_info related.id
    · simp [relatedStep, hid, hck]
    · simp [relatedStep, hid, hck]
  · simp [relatedStep, hid]

theorem relatedStep_no_self (artist_id : String) (st : BuilderState)
    (related : RelatedArtist) (h : noSelfLoop st.edges)
    (hne : related.id ≠ artist_id) : noSelfLoop (relatedStep artist_id st related).edges := by
  rw [relatedStep_edges]
  split_ifs with hid hhe
  · intro e he
    rcases List.mem_map.mp he with ⟨e0, he0, rfl⟩
    by_cases hm : edgeMatches e0 artist_id related.id
    · simp only [hm, if_pos]
      exact h e0 he0
    · simp only [hm, if_neg, Bool.false_eq_true, not_false_iff]
      exact h e0 he0
  · intro e he
    rcases List.mem_append.mp he with he | he
    · exact h e he
    · rcases List.mem_singleton.mp he with rfl
      exact fun hc => hne hc.symm
  · exact h

/-! ## Claim C5 -/

/-- C5 (amended): the co-occurrence path never creates a self-loop
(the `a1 != a2` guard), and the related-artist path creates none as
long as the external lookup never reports an artist as related to
itself — without that assumption it can (see the counterexample). -/
theorem C5_no_self_loops :
    (∀ st : BuilderState, noSelfLoop st.edges →
      noSelfLoop (build_co_occurrence_edges st).edges)
  ∧ (∀ (st : BuilderState) (client : String → Option ApiArtistInfo)
      (limit_per_artist : ℕ), noSelfLoop st.edges →
      (∀ aid info, client aid = some info →
        ∀ r ∈ info.related_artists, r.id ≠ aid) →
      noSelfLoop (add_related_artists st client limit_per_artist).edges) := by
  constructor
  · intro st h
    unfold build_co_occurrence_edges
    apply foldl_preserves (fun es => noSelfLoop es) _ (songArtists st.artist_songs)
      st.edges _ h
    intro es p _ hinv
    by_cases hlen : 1 < p.2.length
    · rw [if_pos hlen]; exact collabPairs_no_self p.1 p.2 es hinv
    · rw [if_neg hlen]; exact hinv
  · intro st client limit_per_artist h hclient
    unfold add_related_artists
    apply foldl_preserves (fun s : BuilderState => noSelfLoop s.edges) _
      ((st.artist_info.map Prod.fst).take 50) st _ h
    intro st0 artist_id _ hinv
    split_ifs with hid
    · exact hinv
    · cases hc : client artist_id with
      | none => exact hinv
      | some info =>
        simp only
        refine foldl_preserves (fun s : BuilderState => noSelfLoop s.edges)
          (relatedStep artist_id) (info.related_artists.take limit_per_artist) _ ?_ ?_
        · intro s r hr hs
          exact relatedStep_no_self artist_id s r hs
            (hclient artist_id info hc r (List.mem_of_mem_take hr))
        · exact hinv

/-! ## Claim C3 -/

/-- C3 counterexample: on two empty genre-weight vectors — both of
zero magnitude — `cosine_similarity` returns 1.0, not the 0.0 the
claim asserts for zero-magnitude inputs. -/
theorem C3_both_empty_gives_one :
    cosine_similarity [] [] = 1 ∧ (1 : ℝ) ≠ 0 := by
  constructor
  · simp [cosine_similarity, keyFinset]
  · norm_num

/-- C3 (amended): `cosine_similarity` returns 1.0 when BOTH vectors
are empty; 0.0 when the combined key set is nonempty and at least one
vector has zero magnitude; and otherwise the standard cosine of the
two vectors over their combined key set. -/
theorem C3_cosine_degenerate_cases (vec1 vec2 : List (String × ℚ)) :
    cosine_similarity vec1 vec2 =
      if vec1 = [] ∧ vec2 = [] then 1
      else if (∑ k ∈ keyFinset vec1 ∪ keyFinset vec2, getD vec1 k 0 * getD vec1 k 0) = 0
          ∨ (∑ k ∈ keyFinset vec1 ∪ keyFinset vec2, getD vec2 k 0 * getD vec2 k 0) = 0
        then 0
      else (((∑ k ∈ keyFinset vec1 ∪ keyFinset vec2, getD vec1 k 0 * getD vec2 k 0 : ℚ)) : ℝ) /
        (Real.sqrt ((∑ k ∈ keyFinset vec1 ∪ keyFinset vec2, getD vec1 k 0 * getD vec1 k 0 : ℚ) : ℝ) *
         Real.sqrt ((∑ k ∈ keyFinset vec1 ∪ keyFinset vec2, getD vec2 k 0 * getD vec2 k 0 : ℚ) : ℝ)) := by
  have hkey : (keyFinset vec1 ∪ keyFinset vec2 = ∅) ↔ (vec1 = [] ∧ vec2 = []) := by
    rw [Finset.union_eq_empty, keyFinset_eq_empty, keyFinset_eq_empty]
  have hsq1 : (0 : ℚ) ≤ ∑ k ∈ keyFinset vec1 ∪ keyFinset vec2, getD vec1 k 0 * getD vec1 k 0 :=
    Finset.sum_nonneg (fun i _ => mul_self_nonneg _)
  have hsq2 : (0 : ℚ) ≤ ∑ k ∈ keyFinset vec1 ∪ keyFinset vec2, getD vec2 k 0 * getD vec2 k 0 :=
    Finset.sum_nonneg (fun i _ => mul_self_nonneg _)
  have h1 : (Real.sqrt ((∑ k ∈ keyFinset vec1 ∪ keyFinset vec2,
      getD vec1 k 0 * getD vec1 k 0 : ℚ) : ℝ) = 0) ↔
      (∑ k ∈ keyFinset vec1 ∪ keyFinset vec2, getD vec1 k 0 * getD vec1 k 0) = 0 := by
    rw [Real.sqrt_eq_zero (by exact_mod_cast hsq1)]
    exact_mod_cast Iff.rfl
  have h2 : (Real.sqrt ((∑ k ∈ keyFinset vec1 ∪ keyFinset vec2,
      getD vec2 k 0 * getD vec2 k 0 : ℚ) : ℝ) = 0) ↔
      (∑ k ∈ keyFinset vec1 ∪ keyFinset vec2, getD vec2 k 0 * getD vec2 k 0) = 0 := by
    rw [Real.sqrt_eq_zero (by exact_mod_cast hsq2)]
    exact_mod_cast Iff.rfl
  simp only [cosine_similarity]
  by_cases hk : keyFinset vec1 ∪ keyFinset vec2 = ∅
  · rw [if_pos hk, if_pos (hkey.mp hk)]
  · rw [if_neg hk, if_neg (fun hc => hk (hkey.mpr hc))]
    exact if_congr (or_congr h1 h2) rfl rfl

/-! ## Claim C7 -/

/-- C7: the composite score is monotone — with all six sub-scores in
[0, 1], raising any of the Jaccard, weighted-overlap or genre-cosine
inputs (and lowering none) never decreases `overallScore`, the
0.40/0.30/0.30 combination scaled to 0–100 and rounded to one
decimal. -/
theorem C7_composite_monotone (j w c j2 w2 c2 : ℝ)
    (hj0 : 0 ≤ j) (hw0 : 0 ≤ w) (hc0 : 0 ≤ c)
    (hj1 : j2 ≤ 1) (hw1 : w2 ≤ 1) (hc1 : c2 ≤ 1)
    (hj : j ≤ j2) (hw : w ≤ w2) (hc : c ≤ c2) :
    overallScore j w c ≤ overallScore j2 w2 c2 := by
  unfold overallScore
  apply pyRoundR_mono
  nlinarith

/-- C7 witness: the monotonicity applied at the concrete corner pair
(0,0,0) ≤ (1,1,1). -/
theorem C7_composite_monotone_witness :
    overallScore 0 0 0 ≤ overallScore 1 1 1 :=
  C7_composite_monotone 0 0 0 1 1 1 le_rfl le_rfl le_rfl le_rfl le_rfl le_rfl
    (by norm_num) (by norm_num) (by norm_num)

/-! ## Claim C9 -/

theorem jaccard_similarity_symm (s1 s2 : Finset String) :
    jaccard_similarity s1 s2 = jaccard_similarity s2 s1 := by
  unfold jaccard_similarity
  by_cases h1 : s1 = ∅ ∧ s2 = ∅
  · rw [if_pos h1, if_pos ⟨h1.2, h1.1⟩]
  · by_cases h2 : s1 = ∅ ∨ s2 = ∅
    · rw [if_neg h1, if_pos h2,
        if_neg (fun hc : s2 = ∅ ∧ s1 = ∅ => h1 ⟨hc.2, hc.1⟩), if_pos h2.symm]
    · rw [if_neg h1, if_neg h2,
        if_neg (fun hc : s2 = ∅ ∧ s1 = ∅ => h1 ⟨hc.2, hc.1⟩),
        if_neg (fun hc : s2 = ∅ ∨ s1 = ∅ => h2 hc.symm)]
      rw [Finset.inter_comm, Finset.union_comm]

theorem weighted_overlap_symm (counts1 counts2 : List (String × ℕ)) :
    weighted_overlap counts1 counts2 = weighted_overlap counts2 counts1 := by
  simp only [weighted_overlap]
  have hmin : (∑ a ∈ keyFinset counts2 ∪ keyFinset counts1,
      min (getD counts2 a 0) (getD counts1 a 0)) =
      ∑ a ∈ keyFinset counts1 ∪ keyFinset counts2,
        min (getD counts1 a 0) (getD counts2 a 0) := by
    rw [Finset.union_comm]
    exact Finset.sum_congr rfl (fun a _ => min_comm _ _)
  have hmax : (∑ a ∈ keyFinset counts2 ∪ keyFinset counts1,
      max (getD counts2 a 0) (getD counts1 a 0)) =
      ∑ a ∈ keyFinset counts1 ∪ keyFinset counts2,
        max (getD counts1 a 0) (getD counts2 a 0) := by
    rw [Finset.union_comm]
    exact Finset.sum_congr rfl (fun a _ => max_comm _ _)
  rw [hmin, hmax, Finset.union_comm (keyFinset counts2) (keyFinset counts1)]

theorem cosine_similarity_symm (vec1 vec2 : List (String × ℚ)) :
    cosine_similarity vec1 vec2 = cosine_similarity vec2 vec1 := by
  simp only [cosine_similarity]
  have hdot : (∑ k ∈ keyFinset vec2 ∪ keyFinset vec1,
      getD vec2 k 0 * getD vec1 k 0) =
      ∑ k ∈ keyFinset vec1 ∪ keyFinset vec2, getD vec1 k 0 * getD vec2 k 0 := by
    rw [Finset.union_comm]
    exact Finset.sum_congr rfl (fun a _ => mul_comm _ _)
  have hm1 : (∑ k ∈ keyFinset vec2 ∪ keyFinset vec1,
      getD vec1 k 0 * getD vec1 k 0) =
      ∑ k ∈ keyFinset vec1 ∪ keyFinset vec2, getD vec1 k 0 * getD vec1 k 0 := by
    rw [Finset.union_comm]
  have hm2 : (∑ k ∈ keyFinset vec2 ∪ keyFinset vec1,
      getD vec2 k 0 * getD vec2 k 0) =
      ∑ k ∈ keyFinset vec1 ∪ keyFinset vec2, getD vec2 k 0 * getD vec2 k 0 := by
    rw [Finset.union_comm]
  rw [hdot, hm1, hm2, Finset.union_comm (keyFinset vec2) (keyFinset vec1)]
  by_cases hk : keyFinset vec1 ∪ keyFinset vec2 = ∅
  · rw [if_pos hk, if_pos hk]
  · rw [if_neg hk, if_neg hk]
    by_cases hz : Real.sqrt ((∑ k ∈ keyFinset vec1 ∪ keyFinset vec2,
        getD vec1 k 0 * getD vec1 k 0 : ℚ) : ℝ) = 0 ∨
        Real.sqrt ((∑ k ∈ keyFinset vec1 ∪ keyFinset vec2,
        getD vec2 k 0 * getD vec2 k 0 : ℚ) : ℝ) = 0
    · rw [if_pos hz, if_pos hz.symm]
    · rw [if_neg hz, if_neg (fun hc => hz hc.symm)]
      rw [mul_comm]

/-- C9: pairwise similarity is symmetric — swapping the two profiles
leaves `overall`, `artist_overlap`, `weighted_overlap`, `genre_match`
and `shared_count` unchanged, and swaps the profile-labelled fields
(`profile1_artist_count`/`profile2_artist_count` and
`unique_to_profile1`/`unique_to_profile2`). -/
theorem C9_pairwise_symmetric (p1 p2 : MusicData) (gm : List (String × String)) :
    (calculate_similarity p1 p2 gm).overall = (calculate_similarity p2 p1 gm).overall
  ∧ (calculate_similarity p1 p2 gm).artist_overlap =
      (calculate_similarity p2 p1 gm).artist_overlap
  ∧ (calculate_similarity p1 p2 gm).weighted_overlap =
      (calculate_similarity p2 p1 gm).weighted_overlap
  ∧ (calculate_similarity p1 p2 gm).genre_match =
      (calculate_similarity p2 p1 gm).genre_match
  ∧ (calculate_similarity p1 p2 gm).shared_count =
      (calculate_similarity p2 p1 gm).shared_count
  ∧ (calculate_similarity p1 p2 gm).profile1_artist_count =
      (calculate_similarity p2 p1 gm).profile2_artist_count
  ∧ (calculate_similarity p1 p2 gm).unique_to_profile1 =
      (calculate_similarity p2 p1 gm).unique_to_profile2 := by
  refine ⟨?_, ?_, ?_, ?_, ?_, ?_, ?_⟩
  · simp only [calculate_similarity]
    rw [jaccard_similarity_symm, weighted_overlap_symm, cosine_similarity_symm]
  · simp only [calculate_similarity]
    rw [jaccard_similarity_symm]
  · simp only [calculate_similarity]
    rw [weighted_overlap_symm]
  · simp only [calculate_similarity]
    rw [cosine_similarity_symm]
  · simp only [calculate_similarity]
    rw [Finset.inter_comm]
  · simp only [calculate_similarity]
  · simp only [calculate_similarity]

/-! ## Claim C8 -/

/-- C8: for n ≥ 2 listeners the group comparison succeeds and returns
an n×n matrix that is symmetric, carries 100.0 on the diagonal, and
whose strictly-upper entries are exactly the pairwise overall scores
in input order (row i / column j is the comparison of the i-th and
j-th input profiles). -/
theorem C8_group_matrix_properties (profiles : List Profile)
    (genre_map : List (String × String)) (h : 2 ≤ profiles.length) :
    calculate_group_similarity profiles genre_map =
      Except.ok (buildGroupResult profiles genre_map)
  ∧ (buildGroupResult profiles genre_map).matrix.length = profiles.length
  ∧ (∀ i, i < profiles.length →
      ((buildGroupResult profiles genre_map).matrix.getD i []).length = profiles.length)
  ∧ (∀ i j, i < profiles.length → j < profiles.length →
      matrixEntry (buildGroupResult profiles genre_map).matrix i j =
        matrixEntry (buildGroupResult profiles genre_map).matrix j i)
  ∧ (∀ i, i < profiles.length →
      matrixEntry (buildGroupResult profiles genre_map).matrix i i = 100)
  ∧ (∀ i j, i < j → j < profiles.length →
      matrixEntry (buildGroupResult profiles genre_map).matrix i j =
        (calculate_similarity (profiles.getD i defaultProfile).music_data
          (profiles.getD j defaultProfile).music_data genre_map).overall) := by
  have hmat : (buildGroupResult profiles genre_map).matrix =
      buildMatrix (fun i j =>
        (calculate_similarity (profiles.getD i defaultProfile).music_data
          (profiles.getD j defaultProfile).music_data genre_map).overall)
        profiles.length := rfl
  refine ⟨?_, ?_, ?_, ?_, ?_, ?_⟩
  · unfold calculate_group_similarity
    rw [if_neg (by omega)]
  · rw [hmat, length_buildMatrix]
  · intro i hi
    rw [hmat, length_buildMatrix_row _ _ i hi]
  · intro i j hi hj
    rw [hmat, matrixEntry_buildMatrix _ _ i j hi hj, matrixEntry_buildMatrix _ _ j i hj hi]
    rcases lt_trichotomy i j with hlt | heq | hgt
    · rw [if_neg (by omega), if_pos hlt, if_neg (by omega), if_neg (by omega)]
    · rw [if_pos heq, if_pos heq.symm]
    · rw [if_neg (by omega), if_neg (by omega), if_neg (by omega), if_pos hgt]
  · intro i hi
    rw [hmat, matrixEntry_buildMatrix _ _ i i hi hi, if_pos rfl]
  · intro i j hij hj
    rw [hmat, matrixEntry_buildMatrix _ _ i j (by omega) hj,
      if_neg (by omega), if_pos hij]

/-- C8 witness: the theorem applied to a concrete two-listener group
(the error-free return of the full result). -/
theorem C8_group_matrix_properties_witness :
    calculate_group_similarity
      [⟨"p1", none, ⟨[]⟩⟩, ⟨"p2", none, ⟨[]⟩⟩] [] =
      Except.ok (buildGroupResult [⟨"p1", none, ⟨[]⟩⟩, ⟨"p2", none, ⟨[]⟩⟩] []) :=
  (C8_group_matrix_properties [⟨"p1", none, ⟨[]⟩⟩, ⟨"p2", none, ⟨[]⟩⟩] []
    (by decide)).1

/-! ## Claim C10 -/

theorem mem_consensusKeys_iff (profiles : List Profile) (hp : profiles ≠ [])
    (a : String) :
    a ∈ consensusKeys profiles ↔ ∀ p ∈ profiles, a ∈ artistKeys p := by
  obtain ⟨p0, ps, rfl⟩ := List.exists_cons_of_ne_nil hp
  unfold consensusKeys
  simp only [List.map_cons]
  rw [List.mem_filter]
  constructor
  · rintro ⟨h0, hall⟩
    intro p hpmem
    rcases List.mem_cons.mp hpmem with rfl | hpmem
    · exact h0
    · have := (List.all_eq_true.mp hall) (artistKeys p)
        (List.mem_map_of_mem artistKeys hpmem)
      simpa using this
  · intro hall
    refine ⟨hall p0 (List.mem_cons_self p0 ps), ?_⟩
    rw [List.all_eq_true]
    intro k hk
    rcases List.mem_map.mp hk with ⟨p, hpmem, rfl⟩
    simpa using hall p (List.mem_cons_of_mem p0 hpmem)

/-- C10: for n ≥ 2 listeners the returned `consensus_artists` list is
the intersection of all artist-name sets, sorted descending by total
song count across the group and truncated to at most 20 entries: it is
the 20-truncation of the sorted intersection, every entry lies in every
listener's artist set, the order is non-increasing in group total, and
whenever the full intersection has at most 20 artists the list keeps
all of them. -/
theorem C10_consensus_artists (profiles : List Profile)
    (genre_map : List (String × String)) (h : 2 ≤ profiles.length) :
    (buildGroupResult profiles genre_map).consensus_artists =
      (sortByDesc (groupTotal profiles) (consensusKeys profiles)).take 20
  ∧ (buildGroupResult profiles genre_map).consensus_artists.length ≤ 20
  ∧ List.Sorted (fun a b => groupTotal profiles b ≤ groupTotal profiles a)
      (buildGroupResult profiles genre_map).consensus_artists
  ∧ (∀ a ∈ (buildGroupResult profiles genre_map).consensus_artists,
      ∀ p ∈ profiles, a ∈ artistKeys p)
  ∧ ((consensusKeys profiles).length ≤ 20 →
      ∀ a, (∀ p ∈ profiles, a ∈ artistKeys p) →
        a ∈ (buildGroupResult profiles genre_map).consensus_artists) := by
  have hne : profiles ≠ [] := by
    intro hc
    rw [hc] at h
    simp at h
  have hc : (buildGroupResult profiles genre_map).consensus_artists =
      (sortByDesc (groupTotal profiles) (consensusKeys profiles)).take 20 := rfl
  refine ⟨hc, ?_, ?_, ?_, ?_⟩
  · rw [hc]
    exact List.length_take_le 20 _
  · rw [hc]
    exact (sorted_sortByDesc (groupTotal profiles) (consensusKeys profiles)).sublist
      (List.take_sublist 20 _)
  · intro a ha p hp
    rw [hc] at ha
    have := (mem_sortByDesc (groupTotal profiles) (consensusKeys profiles) a).mp
      (List.mem_of_mem_take ha)
    exact (mem_consensusKeys_iff profiles hne a).mp this p hp
  · intro h20 a hall
    rw [hc, List.take_of_length_le (by
      rw [length_sortByDesc]
      exact h20)]
    exact (mem_sortByDesc (groupTotal profiles) (consensusKeys profiles) a).mpr
      ((mem_consensusKeys_iff profiles hne a).mpr hall)

/-- C10 witness: the consensus list of a concrete two-listener group
is capped at 20 entries. -/
theorem C10_consensus_artists_witness :
    (buildGroupResult [⟨"p1", none, ⟨[]⟩⟩, ⟨"p2", none, ⟨[]⟩⟩] []).consensus_artists.length ≤ 20 :=
  (C10_consensus_artists [⟨"p1", none, ⟨[]⟩⟩, ⟨"p2", none, ⟨[]⟩⟩] []
    (by decide)).2.1

end YTMM
